import Mathlib

/-!
Verification development for the demo-db inserter (Go).

The definitions below are a shallow embedding of the concurrent
insert-worker subsystem of `inserter.go` (the revision whose supervisor is
`runInsert(ctx, cfg, pool)` and whose loop is `startInsertWorker`) together
with the per-category `InserterConfig` of `config.go`.

Modelling conventions:
* `rand.Uint64N(uint64(len(alphabet)))` is embedded as an external stream of
  draws `randVals : Nat → Nat`; the guarantee that `Uint64N n < n` is
  reflected by reducing each draw modulo the alphabet length.
* Go's `make([]byte, length)` with a negative `length` panics at run time;
  the `Int`-typed wrapper returns `none` in that case.
* goroutines share nothing except the connection pool and the cancellation
  context, so each worker's loop is a pure function of its own task
  outcomes/durations and of the global cancellation instant.  Time is an
  integer clock; a task execution started at `t` finishes at `t + taskDur n`.
* `select { case <-time.After(interval): case <-ctx.Done(): }` is embedded
  by comparing the cancellation instant with the end of the wait window;
  `select { case <-ctx.Done(): default: }` by a non-blocking comparison with
  the current instant.
-/

/-- Embeds the Go constant `alphabet` of `inserter.go`. -/
def alphabet : String := "abcdefghijklmnopqrstuvwxyzABCDEFGHIJKLMNOPQRSTUVWXYZ0123456789"

/-- Embeds `GenerateRandomString(length int) string` of `inserter.go` for a
nonnegative `length`: byte `i` of the result is
`alphabet[rand.Uint64N(uint64(len(alphabet)))]`, the `i`-th random draw taken
in the range of the alphabet. -/
def GenerateRandomString (randVals : Nat → Nat) (length : Nat) : String :=
  String.mk ((List.range length).map fun i =>
    alphabet.toList.getD (randVals i % alphabet.toList.length) 'a')

/-- Embeds `GenerateRandomString` at its actual Go signature (`length int`,
which may be negative): `make([]byte, length)` panics for a negative
`length` ("makeslice: len out of range"), embedded as `none`. -/
def GenerateRandomStringGo (randVals : Nat → Nat) (length : Int) : Option String :=
  if length < 0 then none
  else some (GenerateRandomString randVals length.toNat)

/-- Embeds the `{enabled, every_n_seconds}` records of `InserterConfig` in
`config.go` (`wal_switcher`, `timestamp_inserts`, `bigtable_inserts`). -/
structure ToggleConfig where
  enabled : Bool
  everyNSeconds : Int
deriving Repr, DecidableEq

/-- Embeds the `main_tables_inserts` record of `InserterConfig` in
`config.go` (`mode`, `enabled`, `every_n_seconds`). -/
structure MainTablesToggle where
  mode : String
  enabled : Bool
  everyNSeconds : Int
deriving Repr, DecidableEq

/-- Embeds the inner `Inserter` struct of `InserterConfig` in `config.go`. -/
structure InserterSettings where
  walSwitcher : ToggleConfig
  timestampInserts : ToggleConfig
  bigTableInserts : ToggleConfig
  mainTablesInserts : MainTablesToggle
deriving Repr, DecidableEq

/-- Embeds `InserterConfig` of `config.go`. -/
structure InserterConfig where
  host : String
  port : String
  database : String
  username : String
  password : String
  inserter : InserterSettings
deriving Repr, DecidableEq

/-- Static description of one call to `startInsertWorker` in
`runInsert` of `inserter.go`: the table name, the `interval` argument in
seconds, the lengths of the `GenerateRandomString` payloads bound as
statement parameters, and the per-call deadline (in seconds) wrapped around
`pool.Exec` inside the task closure — `none` when the closure passes the
supervisor's cancellation context `ctx` directly, with no
`context.WithTimeout`. -/
structure WorkerSpec where
  tableName : String
  intervalSeconds : Int
  payloadShape : List Nat
  deadlineSeconds : Option Nat
deriving Repr, DecidableEq

/-- Embeds the literal `tables := map[string]int{"artist": 20, "genre": 120,
"media_type": 120, "playlist": 120}` of `runInsert`, listed in source-literal
order (Go map iteration order is unspecified; no theorem below depends on
the order of this list). -/
def mainTables : List (String × Nat) :=
  [("artist", 20), ("genre", 120), ("media_type", 120), ("playlist", 120)]

/-- Embeds the launch logic of `runInsert(ctx, cfg, pool)` in `inserter.go`:
the list of workers handed to `startInsertWorker`, one entry per call.
* `timestamp` (when enabled): interval `EveryNSeconds` seconds, task
  `pool.Exec(ctx, INSERT INTO "timestamp" ... NOW())` — no payload string,
  no per-call timeout.
* `bigtable` (when enabled): interval `0`, task binds one
  `GenerateRandomString(120)` value to all five columns — five parameters of
  length 120, no per-call timeout.
* main tables (when enabled): one worker per entry of `mainTables`, interval
  `0`, one parameter `GenerateRandomString(length)`, plus the `employee`
  worker with ten parameters `s20, s20, s20, s60, s40, s40, s40, s20, s20,
  s60`; every task calls `pool.Exec(ctx, ...)` with no per-call timeout. -/
def workersOf (cfg : InserterConfig) : List WorkerSpec :=
  (if cfg.inserter.timestampInserts.enabled then
    [{ tableName := "timestamp",
       intervalSeconds := cfg.inserter.timestampInserts.everyNSeconds,
       payloadShape := [], deadlineSeconds := none }]
   else [])
  ++ (if cfg.inserter.bigTableInserts.enabled then
    [{ tableName := "bigtable", intervalSeconds := 0,
       payloadShape := [120, 120, 120, 120, 120], deadlineSeconds := none }]
   else [])
  ++ (if cfg.inserter.mainTablesInserts.enabled then
    (mainTables.map fun p =>
      { tableName := p.1, intervalSeconds := 0,
        payloadShape := [p.2], deadlineSeconds := none })
    ++ [{ tableName := "employee", intervalSeconds := 0,
          payloadShape := [20, 20, 20, 60, 40, 40, 40, 20, 20, 60],
          deadlineSeconds := none }]
   else [])

/-- How a worker's loop in `startInsertWorker` terminated.  `outOfFuel` is an
artefact of the embedding only: the Go loop is unbounded, and the embedding
evaluates it up to a fuel bound. -/
inductive StopReason where
  | taskError
  | cancelledDuringWait
  | cancelledAtCheck
  | outOfFuel
deriving Repr, DecidableEq

/-- One `task()` call inside the worker loop: the instants at which the
execution started and finished. -/
structure ExecRecord where
  startTime : Int
  endTime : Int
deriving Repr, DecidableEq

/-- The observable outcome of one worker's loop: its executions in order,
how many error lines it printed, why it stopped and when. -/
structure WorkerRun where
  execs : List ExecRecord
  errorLogs : Nat
  stopReason : StopReason
  stopTime : Int
deriving Repr, DecidableEq

/-- Embeds the goroutine body of `startInsertWorker(wg, ctx, tableName,
interval, task)` in `inserter.go`, evaluated for `fuel` iterations from
iteration index `n` at instant `t`:

    for {
      err := task()
      if err != nil { fmt.Printf("Error inserting ..."); return }
      if interval > 0 {
        select { case <-time.After(interval): case <-ctx.Done(): return }
      } else {
        select { case <-ctx.Done(): return default: }
      }
    }

`taskOk n` tells whether iteration `n`'s `task()` returned `nil`;
`taskDur n` is its duration; `cancelAt` is the instant at which `ctx.Done()`
is closed (`none`: never).  In the blocking select the cancellation wins
exactly when it fires strictly before the `time.After(interval)` timer,
i.e. when `cancelAt < end-of-execution + interval` (if it fired during the
execution itself it is already closed and wins immediately); in the
non-blocking select the worker returns exactly when `ctx.Done()` is already
closed at the check. -/
def workerLoop (interval : Int) (taskOk : Nat → Bool) (taskDur : Nat → Nat)
    (cancelAt : Option Int) : Nat → Nat → Int → WorkerRun
  | 0, _, t => { execs := [], errorLogs := 0, stopReason := .outOfFuel, stopTime := t }
  | fuel + 1, n, t =>
    let tEnd : Int := t + taskDur n
    let er : ExecRecord := { startTime := t, endTime := tEnd }
    if taskOk n = false then
      { execs := [er], errorLogs := 1, stopReason := .taskError, stopTime := tEnd }
    else if 0 < interval then
      match cancelAt with
      | some c =>
        if c < tEnd + interval then
          { execs := [er], errorLogs := 0, stopReason := .cancelledDuringWait,
            stopTime := max tEnd c }
        else
          let rest := workerLoop interval taskOk taskDur (some c) fuel (n + 1) (tEnd + interval)
          { rest with execs := er :: rest.execs }
      | none =>
        let rest := workerLoop interval taskOk taskDur none fuel (n + 1) (tEnd + interval)
        { rest with execs := er :: rest.execs }
    else
      match cancelAt with
      | some c =>
        if c ≤ tEnd then
          { execs := [er], errorLogs := 0, stopReason := .cancelledAtCheck, stopTime := tEnd }
        else
          let rest := workerLoop interval taskOk taskDur (some c) fuel (n + 1) tEnd
          { rest with execs := er :: rest.execs }
      | none =>
        let rest := workerLoop interval taskOk taskDur none fuel (n + 1) tEnd
        { rest with execs := er :: rest.execs }

/-- The environment one worker's task observes: whether each iteration's
`task()` succeeds and how long it takes.  Each goroutine's closure touches
only its own table, so environments are indexed by table name. -/
structure WorkerEnv where
  taskOk : Nat → Bool
  taskDur : Nat → Nat

/-- One worker goroutine launched by `startInsertWorker`: its loop run from
iteration 0 at instant 0, driven by its own environment and by the shared
cancellation instant. -/
def runWorker (envs : String → WorkerEnv) (cancelAt : Option Int) (fuel : Nat)
    (w : WorkerSpec) : WorkerRun :=
  workerLoop w.intervalSeconds (envs w.tableName).taskOk (envs w.tableName).taskDur
    cancelAt fuel 0 0

/-- Embeds the supervisor `runInsert(ctx, cfg, pool)`: it launches the
workers of `workersOf cfg` (goroutines sharing only the pool and `ctx`) and
`wg.Wait()`s for all of them; its observable outcome is every worker's run.
An empty list means no goroutine was launched and `wg.Wait()` returned
immediately. -/
def runInsert (cfg : InserterConfig) (envs : String → WorkerEnv)
    (cancelAt : Option Int) (fuel : Nat) : List (WorkerSpec × WorkerRun) :=
  (workersOf cfg).map fun w => (w, runWorker envs cancelAt fuel w)

/-- The five tables of the main-tables category, as the spec's scenario
lists them. -/
def mainTableNames : List String :=
  ["artist", "genre", "media_type", "playlist", "employee"]

/-- A concrete configuration with all three insert categories enabled. -/
def cfgAllEnabled : InserterConfig :=
  { host := "localhost", port := "5432", database := "demo",
    username := "u", password := "p",
    inserter :=
      { walSwitcher := { enabled := false, everyNSeconds := 0 },
        timestampInserts := { enabled := true, everyNSeconds := 2 },
        bigTableInserts := { enabled := true, everyNSeconds := 0 },
        mainTablesInserts := { mode := "", enabled := true, everyNSeconds := 0 } } }

/-- A concrete configuration with only the main-tables category enabled. -/
def cfgMainOnly : InserterConfig :=
  { host := "localhost", port := "5432", database := "demo",
    username := "u", password := "p",
    inserter :=
      { walSwitcher := { enabled := false, everyNSeconds := 0 },
        timestampInserts := { enabled := false, everyNSeconds := 2 },
        bigTableInserts := { enabled := false, everyNSeconds := 0 },
        mainTablesInserts := { mode := "", enabled := true, everyNSeconds := 7 } } }

/-- A concrete configuration with every insert category disabled. -/
def cfgNoneEnabled : InserterConfig :=
  { host := "localhost", port := "5432", database := "demo",
    username := "u", password := "p",
    inserter :=
      { walSwitcher := { enabled := false, everyNSeconds := 0 },
        timestampInserts := { enabled := false, everyNSeconds := 2 },
        bigTableInserts := { enabled := false, everyNSeconds := 0 },
        mainTablesInserts := { mode := "", enabled := false, everyNSeconds := 0 } } }

/-- A task environment in which every execution succeeds and takes one
time unit. -/
def allOkEnv : String → WorkerEnv :=
  fun _ => { taskOk := fun _ => true, taskDur := fun _ => 1 }

/-- Like `allOkEnv`, except that every execution against the `artist` table
returns an error. -/
def artistFailsEnv : String → WorkerEnv := fun name =>
  if name = "artist" then { taskOk := fun _ => false, taskDur := fun _ => 1 }
  else allOkEnv name

/-- Every character the generator can pick is a character of the alphabet. -/
theorem mem_alphabet_getD (k : Nat) :
    alphabet.toList.getD (k % alphabet.toList.length) 'a' ∈ alphabet.toList := by
  have h : k % alphabet.toList.length < alphabet.toList.length :=
    Nat.mod_lt _ (by decide)
  rw [List.getD_eq_getElem?_getD, List.getElem?_eq_getElem h]
  exact List.getElem_mem h

/-- C4: for every length > 0, `GenerateRandomString(length)` returns a
string of exactly `length` characters, each drawn from the fixed 62-symbol
alphabet. -/
theorem generateRandomString_length_and_alphabet (randVals : Nat → Nat)
    (length : Nat) (hpos : 0 < length) :
    (GenerateRandomString randVals length).length = length ∧
    alphabet.toList.length = 62 ∧
    ∀ c ∈ (GenerateRandomString randVals length).toList, c ∈ alphabet.toList := by
  refine ⟨?_, by decide, ?_⟩
  · show ((List.range length).map fun i =>
      alphabet.toList.getD (randVals i % alphabet.toList.length) 'a').length = length
    simp
  · intro c hc
    have hc' : c ∈ (List.range length).map fun i =>
        alphabet.toList.getD (randVals i % alphabet.toList.length) 'a' := hc
    obtain ⟨i, -, rfl⟩ := List.mem_map.mp hc'
    exact mem_alphabet_getD (randVals i)

/-- C4 witness: at length 5 with a concrete stream of random draws, the
generated string has 5 characters, all of them in the 62-symbol alphabet. -/
theorem generateRandomString_length_and_alphabet_witness :
    0 < 5 ∧
    ((GenerateRandomString (fun i => 7 * i) 5).length = 5 ∧
     alphabet.toList.length = 62 ∧
     ∀ c ∈ (GenerateRandomString (fun i => 7 * i) 5).toList, c ∈ alphabet.toList) :=
  ⟨by decide, generateRandomString_length_and_alphabet (fun i => 7 * i) 5 (by decide)⟩

/-- C10: `GenerateRandomString(0)` returns the empty string, and for every
negative length the call faults (the negative-size `make([]byte, length)`
allocation, embedded as `none`), so only nonnegative lengths return a
value. -/
theorem generateRandomStringGo_zero_and_negative (randVals : Nat → Nat) :
    GenerateRandomStringGo randVals 0 = some "" ∧
    ∀ len : Int, len < 0 → GenerateRandomStringGo randVals len = none := by
  constructor
  · rfl
  · intro len hlen
    simp [GenerateRandomStringGo, hlen]

/-- C10 witness: with a concrete stream, length 0 yields `some ""` and
length -1 yields `none`. -/
theorem generateRandomStringGo_zero_and_negative_witness :
    GenerateRandomStringGo (fun _ => 0) 0 = some "" ∧
    ((-1 : Int) < 0 ∧ GenerateRandomStringGo (fun _ => 0) (-1) = none) :=
  ⟨(generateRandomStringGo_zero_and_negative (fun _ => 0)).1, by decide,
   (generateRandomStringGo_zero_and_negative (fun _ => 0)).2 (-1) (by decide)⟩

/-- Characterization of the workers `runInsert` can launch: the `timestamp`
worker (whose interval is the configured `every_n_seconds`) or one of the
six fixed workers launched with interval 0 and no per-call deadline. -/
theorem mem_workersOf (cfg : InserterConfig) (w : WorkerSpec)
    (hw : w ∈ workersOf cfg) :
    w = { tableName := "timestamp",
          intervalSeconds := cfg.inserter.timestampInserts.everyNSeconds,
          payloadShape := [], deadlineSeconds := none } ∨
    w ∈ [{ tableName := "bigtable", intervalSeconds := 0,
           payloadShape := [120, 120, 120, 120, 120], deadlineSeconds := none },
         { tableName := "artist", intervalSeconds := 0,
           payloadShape := [20], deadlineSeconds := none },
         { tableName := "genre", intervalSeconds := 0,
           payloadShape := [120], deadlineSeconds := none },
         { tableName := "media_type", intervalSeconds := 0,
           payloadShape := [120], deadlineSeconds := none },
         { tableName := "playlist", intervalSeconds := 0,
           payloadShape := [120], deadlineSeconds := none },
         { tableName := "employee", intervalSeconds := 0,
           payloadShape := [20, 20, 20, 60, 40, 40, 40, 20, 20, 60],
           deadlineSeconds := none }] := by
  simp only [workersOf, mainTables, List.map_cons, List.map_nil,
    List.mem_append] at hw
  rcases hw with (hw | hw) | hw
  · split at hw
    · left
      simpa using hw
    · simp at hw
  · split at hw
    · right
      simp only [List.mem_singleton] at hw
      simp [hw]
    · simp at hw
  · split at hw
    · right
      simp only [List.mem_append, List.mem_cons, List.not_mem_nil, or_false] at hw
      simp only [List.mem_cons, List.not_mem_nil, or_false]
      tauto
    · simp at hw

/-- C9: the configured `every_n_seconds` is honored only for the timestamp
category — every other worker (`bigtable` and the five main-tables workers)
is launched with interval 0, whatever the configuration says, while the
timestamp worker's interval is exactly its configured `every_n_seconds`. -/
theorem everyNSeconds_honored_only_for_timestamp (cfg : InserterConfig)
    (w : WorkerSpec) (hw : w ∈ workersOf cfg) :
    (w.tableName ≠ "timestamp" → w.intervalSeconds = 0) ∧
    (w.tableName = "timestamp" →
      w.intervalSeconds = cfg.inserter.timestampInserts.everyNSeconds) := by
  rcases mem_workersOf cfg w hw with rfl | hmem
  · exact ⟨fun h => absurd rfl h, fun _ => rfl⟩
  · fin_cases hmem <;> exact ⟨fun _ => rfl, fun h => by simp at h⟩

/-- C9 witness: in the all-enabled configuration (where the bigtable
category is configured with `every_n_seconds = 0` but the timestamp category
with 2), the bigtable worker is in the launch list, its interval is 0, and
the timestamp clause holds vacuously. -/
theorem everyNSeconds_honored_only_for_timestamp_witness :
    ({ tableName := "bigtable", intervalSeconds := 0,
       payloadShape := [120, 120, 120, 120, 120],
       deadlineSeconds := none } : WorkerSpec) ∈ workersOf cfgAllEnabled ∧
    ((({ tableName := "bigtable", intervalSeconds := 0,
         payloadShape := [120, 120, 120, 120, 120],
         deadlineSeconds := none } : WorkerSpec).tableName ≠ "timestamp" →
       ({ tableName := "bigtable", intervalSeconds := 0,
          payloadShape := [120, 120, 120, 120, 120],
          deadlineSeconds := none } : WorkerSpec).intervalSeconds = 0) ∧
     (({ tableName := "bigtable", intervalSeconds := 0,
         payloadShape := [120, 120, 120, 120, 120],
         deadlineSeconds := none } : WorkerSpec).tableName = "timestamp" →
       ({ tableName := "bigtable", intervalSeconds := 0,
          payloadShape := [120, 120, 120, 120, 120],
          deadlineSeconds := none } : WorkerSpec).intervalSeconds =
         cfgAllEnabled.inserter.timestampInserts.everyNSeconds)) :=
  ⟨by decide, everyNSeconds_honored_only_for_timestamp cfgAllEnabled _ (by decide)⟩

/-- C7 counterexample: in the all-enabled configuration it is false that
every launched worker's task runs under a per-call deadline of 3–5 seconds —
the tasks pass the supervisor's cancellation context to `pool.Exec` with no
`context.WithTimeout` at all. -/
theorem task_deadline_counterexample :
    ¬ ∀ w ∈ workersOf cfgAllEnabled,
        ∃ d : Nat, w.deadlineSeconds = some d ∧ 3 ≤ d ∧ d ≤ 5 := by
  intro h
  obtain ⟨d, hd, -⟩ := h ⟨"timestamp", 2, [], none⟩ (by decide)
  exact Option.noConfusion hd

/-- C7 (amended): every insert task launched by `runInsert` executes its
parameterized statement against the pool under the supervisor's cancellation
context directly, with no per-call deadline. -/
theorem task_runs_without_per_call_deadline (cfg : InserterConfig)
    (w : WorkerSpec) (hw : w ∈ workersOf cfg) :
    w.deadlineSeconds = none := by
  rcases mem_workersOf cfg w hw with rfl | hmem
  · rfl
  · fin_cases hmem <;> rfl

/-- C7 witness: the bigtable worker of the all-enabled configuration has no
per-call deadline. -/
theorem task_runs_without_per_call_deadline_witness :
    ({ tableName := "bigtable", intervalSeconds := 0,
       payloadShape := [120, 120, 120, 120, 120],
       deadlineSeconds := none } : WorkerSpec) ∈ workersOf cfgAllEnabled ∧
    ({ tableName := "bigtable", intervalSeconds := 0,
       payloadShape := [120, 120, 120, 120, 120],
       deadlineSeconds := none } : WorkerSpec).deadlineSeconds = none :=
  ⟨by decide, task_runs_without_per_call_deadline cfgAllEnabled _ (by decide)⟩

/-- C5: whenever the main-tables category is enabled, the supervisor
launches exactly five main-table workers — one each for artist, genre,
media_type, playlist and employee — with payload shapes [20], [120], [120],
[120] and [20,20,20,60,40,40,40,20,20,60] respectively (whatever other
categories are enabled, these are exactly the launched workers whose table
is a main table). -/
theorem mainTables_launches_exactly_five (cfg : InserterConfig)
    (hmain : cfg.inserter.mainTablesInserts.enabled = true) :
    (workersOf cfg).filter (fun w => mainTableNames.contains w.tableName) =
      [{ tableName := "artist", intervalSeconds := 0,
         payloadShape := [20], deadlineSeconds := none },
       { tableName := "genre", intervalSeconds := 0,
         payloadShape := [120], deadlineSeconds := none },
       { tableName := "media_type", intervalSeconds := 0,
         payloadShape := [120], deadlineSeconds := none },
       { tableName := "playlist", intervalSeconds := 0,
         payloadShape := [120], deadlineSeconds := none },
       { tableName := "employee", intervalSeconds := 0,
         payloadShape := [20, 20, 20, 60, 40, 40, 40, 20, 20, 60],
         deadlineSeconds := none }] := by
  simp only [workersOf, mainTables, hmain, if_true, List.filter_append]
  split_ifs <;> simp [mainTableNames]

/-- C5 witness: in the configuration enabling only the main-tables category,
filtering the launched workers to the main tables gives exactly the five
expected workers. -/
theorem mainTables_launches_exactly_five_witness :
    cfgMainOnly.inserter.mainTablesInserts.enabled = true ∧
    (workersOf cfgMainOnly).filter (fun w => mainTableNames.contains w.tableName) =
      [{ tableName := "artist", intervalSeconds := 0,
         payloadShape := [20], deadlineSeconds := none },
       { tableName := "genre", intervalSeconds := 0,
         payloadShape := [120], deadlineSeconds := none },
       { tableName := "media_type", intervalSeconds := 0,
         payloadShape := [120], deadlineSeconds := none },
       { tableName := "playlist", intervalSeconds := 0,
         payloadShape := [120], deadlineSeconds := none },
       { tableName := "employee", intervalSeconds := 0,
         payloadShape := [20, 20, 20, 60, 40, 40, 40, 20, 20, 60],
         deadlineSeconds := none }] :=
  ⟨rfl, mainTables_launches_exactly_five cfgMainOnly rfl⟩

/-- C6: when all three categories (timestamp, bigtable, main-tables) are
disabled, the supervisor launches no worker at all and its run produces no
execution — `wg.Wait()` over zero workers returns immediately. -/
theorem zero_categories_returns_immediately (cfg : InserterConfig)
    (hts : cfg.inserter.timestampInserts.enabled = false)
    (hbt : cfg.inserter.bigTableInserts.enabled = false)
    (hmt : cfg.inserter.mainTablesInserts.enabled = false) :
    workersOf cfg = [] ∧
    ∀ (envs : String → WorkerEnv) (cancelAt : Option Int) (fuel : Nat),
      runInsert cfg envs cancelAt fuel = [] := by
  have h : workersOf cfg = [] := by simp [workersOf, hts, hbt, hmt]
  exact ⟨h, fun envs cancelAt fuel => by simp [runInsert, h]⟩

/-- C6 witness: the all-disabled configuration launches no workers, and a
concrete supervisor run under it is empty. -/
theorem zero_categories_returns_immediately_witness :
    workersOf cfgNoneEnabled = [] ∧
    runInsert cfgNoneEnabled allOkEnv none 5 = [] :=
  ⟨(zero_categories_returns_immediately cfgNoneEnabled rfl rfl rfl).1,
   (zero_categories_returns_immediately cfgNoneEnabled rfl rfl rfl).2 allOkEnv none 5⟩

/-- The first thing a worker's loop iteration does is run `task()`: with
any fuel left, the first recorded execution starts at the current instant
and ends after its duration. -/
theorem workerLoop_first_exec (interval : Int) (taskOk : Nat → Bool)
    (taskDur : Nat → Nat) (cancelAt : Option Int) (fuel n : Nat) (t : Int) :
    (workerLoop interval taskOk taskDur cancelAt (fuel + 1) n t).execs.head? =
      some { startTime := t, endTime := t + taskDur n } := by
  cases cancelAt with
  | none =>
    by_cases hf : taskOk n = false <;> by_cases hi : 0 < interval <;>
      simp [workerLoop, hf, hi]
  | some c =>
    by_cases hf : taskOk n = false <;> by_cases hi : 0 < interval <;>
      by_cases hc : c < t + taskDur n + interval <;>
      by_cases hc2 : c ≤ t + taskDur n <;>
      simp [workerLoop, hf, hi, hc, hc2]

/-- C3: whenever an iteration's task execution returns an error, the worker
records exactly that one execution, prints exactly one error line, and its
loop exits at the instant the failing execution finished — no retry, no
further iteration. -/
theorem worker_error_logged_once_and_stops (interval : Int)
    (taskOk : Nat → Bool) (taskDur : Nat → Nat) (cancelAt : Option Int)
    (fuel n : Nat) (t : Int) (hfail : taskOk n = false) :
    (workerLoop interval taskOk taskDur cancelAt (fuel + 1) n t).stopReason = .taskError ∧
    (workerLoop interval taskOk taskDur cancelAt (fuel + 1) n t).errorLogs = 1 ∧
    (workerLoop interval taskOk taskDur cancelAt (fuel + 1) n t).execs =
      [{ startTime := t, endTime := t + taskDur n }] ∧
    (workerLoop interval taskOk taskDur cancelAt (fuel + 1) n t).stopTime =
      t + taskDur n := by
  simp [workerLoop, hfail]

/-- C3 witness: a worker whose first task fails stops with one logged error
and exactly one recorded execution. -/
theorem worker_error_logged_once_and_stops_witness :
    (fun _ : Nat => false) 0 = false ∧
    ((workerLoop 0 (fun _ => false) (fun _ => 2) none (3 + 1) 0 0).stopReason = .taskError ∧
     (workerLoop 0 (fun _ => false) (fun _ => 2) none (3 + 1) 0 0).errorLogs = 1 ∧
     (workerLoop 0 (fun _ => false) (fun _ => 2) none (3 + 1) 0 0).execs =
       [{ startTime := 0, endTime := 0 + (2 : Nat) }] ∧
     (workerLoop 0 (fun _ => false) (fun _ => 2) none (3 + 1) 0 0).stopTime =
       0 + (2 : Nat)) :=
  ⟨rfl, worker_error_logged_once_and_stops 0 (fun _ => false) (fun _ => 2) none 3 0 0 rfl⟩

/-- C2: with a positive interval, after a successful execution (finishing
at `t + taskDur n`) the worker waits exactly the interval or until the
cancellation instant, whichever is first: if cancellation fires before the
wait window ends, the worker stops at that instant (never later than the
window's end — it does not sit out the remaining delay) having run no
further execution; if the interval elapses with no cancellation before the
window's end, the next execution starts exactly one interval after the
previous one finished. -/
theorem worker_positive_interval_waits_or_cancels (interval : Int)
    (hpos : 0 < interval) (taskOk : Nat → Bool) (taskDur : Nat → Nat)
    (cancelAt : Option Int) (fuel n : Nat) (t : Int) (hok : taskOk n = true) :
    (∀ c, cancelAt = some c → c < t + taskDur n + interval →
      (workerLoop interval taskOk taskDur cancelAt (fuel + 2) n t).stopReason =
        .cancelledDuringWait ∧
      (workerLoop interval taskOk taskDur cancelAt (fuel + 2) n t).stopTime =
        max (t + taskDur n) c ∧
      (workerLoop interval taskOk taskDur cancelAt (fuel + 2) n t).stopTime <
        t + taskDur n + interval ∧
      (workerLoop interval taskOk taskDur cancelAt (fuel + 2) n t).execs.length = 1) ∧
    ((∀ c, cancelAt = some c → t + taskDur n + interval ≤ c) →
      (workerLoop interval taskOk taskDur cancelAt (fuel + 2) n t).execs[1]? =
        some { startTime := t + taskDur n + interval,
               endTime := t + taskDur n + interval + taskDur (n + 1) }) := by
  have hf : ¬ taskOk n = false := by simp [hok]
  constructor
  · intro c hc hlt
    subst hc
    have hstep : workerLoop interval taskOk taskDur (some c) (fuel + 2) n t =
        { execs := [{ startTime := t, endTime := t + taskDur n }], errorLogs := 0,
          stopReason := .cancelledDuringWait, stopTime := max (t + taskDur n) c } := by
      simp only [workerLoop, if_neg hf, if_pos hpos, if_pos hlt]
    rw [hstep]
    refine ⟨rfl, rfl, ?_, rfl⟩
    exact max_lt (by linarith [Int.ofNat_nonneg (taskDur n)]) hlt
  · intro hnc
    cases cancelAt with
    | none =>
      simp only [workerLoop, if_neg hf, if_pos hpos]
      rw [show (1 : Nat) = 0 + 1 from rfl, List.getElem?_cons_succ]
      rw [← List.head?_eq_getElem?]
      split_ifs <;> rfl
    | some c =>
      have hge : ¬ c < t + taskDur n + interval := not_lt.mpr (hnc c rfl)
      simp only [workerLoop, if_neg hf, if_pos hpos, if_neg hge]
      rw [show (1 : Nat) = 0 + 1 from rfl, List.getElem?_cons_succ]
      rw [← List.head?_eq_getElem?]
      split_ifs <;> rfl

/-- C2 witness: interval 5, execution of duration 1 starting at 0,
cancellation at instant 2 (inside the wait window): the worker stops at 2
with reason cancelled-during-wait after its single execution. -/
theorem worker_positive_interval_waits_or_cancels_witness :
    0 < (5 : Int) ∧ (fun _ : Nat => true) 0 = true ∧
    (workerLoop 5 (fun _ => true) (fun _ => 1) (some 2) (0 + 2) 0 0).stopReason =
      .cancelledDuringWait ∧
    (workerLoop 5 (fun _ => true) (fun _ => 1) (some 2) (0 + 2) 0 0).stopTime = 2 ∧
    (workerLoop 5 (fun _ => true) (fun _ => 1) (some 2) (0 + 2) 0 0).execs.length = 1 := by
  have h := (worker_positive_interval_waits_or_cancels 5 (by decide) (fun _ => true)
    (fun _ => 1) (some 2) 0 0 0 rfl).1 2 rfl (by decide)
  exact ⟨by decide, rfl, h.1, by decide, h.2.2.2⟩

/-- C8: with interval zero (or negative — the `else` branch of
`interval > 0`), after a successful execution the worker checks cancellation
without blocking and loops straight back: if cancellation had already fired
by the end of the execution the worker stops right there, at the execution's
end instant; otherwise the next execution starts at exactly that same
instant, with no injected delay. -/
theorem worker_zero_interval_back_to_back (interval : Int) (hz : interval ≤ 0)
    (taskOk : Nat → Bool) (taskDur : Nat → Nat) (cancelAt : Option Int)
    (fuel n : Nat) (t : Int) (hok : taskOk n = true) :
    (∀ c, cancelAt = some c → c ≤ t + taskDur n →
      (workerLoop interval taskOk taskDur cancelAt (fuel + 2) n t).stopReason =
        .cancelledAtCheck ∧
      (workerLoop interval taskOk taskDur cancelAt (fuel + 2) n t).stopTime =
        t + taskDur n ∧
      (workerLoop interval taskOk taskDur cancelAt (fuel + 2) n t).execs.length = 1) ∧
    ((∀ c, cancelAt = some c → t + taskDur n < c) →
      (workerLoop interval taskOk taskDur cancelAt (fuel + 2) n t).execs[1]? =
        some { startTime := t + taskDur n,
               endTime := t + taskDur n + taskDur (n + 1) }) := by
  have hf : ¬ taskOk n = false := by simp [hok]
  have hi : ¬ 0 < interval := not_lt.mpr hz
  constructor
  · intro c hc hle
    subst hc
    have hstep : workerLoop interval taskOk taskDur (some c) (fuel + 2) n t =
        { execs := [{ startTime := t, endTime := t + taskDur n }], errorLogs := 0,
          stopReason := .cancelledAtCheck, stopTime := t + taskDur n } := by
      simp only [workerLoop, if_neg hf, if_neg hi, if_pos hle]
    rw [hstep]
    exact ⟨rfl, rfl, rfl⟩
  · intro hnc
    cases cancelAt with
    | none =>
      simp only [workerLoop, if_neg hf, if_neg hi]
      rw [show (1 : Nat) = 0 + 1 from rfl, List.getElem?_cons_succ]
      rw [← List.head?_eq_getElem?]
      split_ifs <;> rfl
    | some c =>
      have hgt : ¬ c ≤ t + taskDur n := not_le.mpr (hnc c rfl)
      simp only [workerLoop, if_neg hf, if_neg hi, if_neg hgt]
      rw [show (1 : Nat) = 0 + 1 from rfl, List.getElem?_cons_succ]
      rw [← List.head?_eq_getElem?]
      split_ifs <;> rfl

/-- C8 witness: interval 0, never cancelled, executions of duration 3: the
second execution starts at instant 3, exactly when the first one ended. -/
theorem worker_zero_interval_back_to_back_witness :
    (0 : Int) ≤ 0 ∧ (fun _ : Nat => true) 0 = true ∧
    (workerLoop 0 (fun _ => true) (fun _ => 3) none (0 + 2) 0 0).execs[1]? =
      some { startTime := 3, endTime := 6 } := by
  have h := (worker_zero_interval_back_to_back 0 (by decide) (fun _ => true)
    (fun _ => 3) none 0 0 0 rfl).2 (fun c hc => by cases hc)
  exact ⟨by decide, rfl, h.trans (by decide)⟩

/-- C1: one worker's failure (or any change in its task behaviour,
including observing cancellation and exiting) never blocks, terminates or
otherwise affects a sibling worker: if two task environments agree on every
table except `j`, then every launched worker whose table is not `j` has the
exact same run — same executions, same stop reason, same stop instant — in
the supervisor's outcome under either environment, and the supervisor still
carries every sibling's run to completion. -/
theorem worker_failure_never_affects_siblings (cfg : InserterConfig)
    (envs envsF : String → WorkerEnv) (cancelAt : Option Int) (fuel : Nat)
    (j : String) (hagree : ∀ name, name ≠ j → envsF name = envs name)
    (i : Nat) (w : WorkerSpec) (hw : (workersOf cfg)[i]? = some w)
    (hne : w.tableName ≠ j) :
    (runInsert cfg envsF cancelAt fuel)[i]? =
      (runInsert cfg envs cancelAt fuel)[i]? := by
  simp only [runInsert, List.getElem?_map, hw, Option.map_some', runWorker,
    hagree w.tableName hne]

/-- C1 witness: with only the main-tables category enabled, making every
`artist` task fail leaves the `genre` worker's entry in the supervisor
outcome unchanged, execution for execution. -/
theorem worker_failure_never_affects_siblings_witness :
    (workersOf cfgMainOnly)[1]? =
      some { tableName := "genre", intervalSeconds := 0,
             payloadShape := [120], deadlineSeconds := none } ∧
    ({ tableName := "genre", intervalSeconds := 0, payloadShape := [120],
       deadlineSeconds := none } : WorkerSpec).tableName ≠ "artist" ∧
    (runInsert cfgMainOnly artistFailsEnv (some 10) 3)[1]? =
      (runInsert cfgMainOnly allOkEnv (some 10) 3)[1]? :=
  ⟨by decide, by decide,
   worker_failure_never_affects_siblings cfgMainOnly allOkEnv artistFailsEnv
     (some 10) 3 "artist" (fun name h => if_neg h) 1
     { tableName := "genre", intervalSeconds := 0, payloadShape := [120],
       deadlineSeconds := none } (by decide) (by decide)⟩
